import Mathlib

/-!
# Verification of the noise-sample selection layer of `audio_denoise.py`

A shallow embedding of the pure logic of `src/audio_denoise.py`:
* `parse_time_range` (lines 61-93): parsing a time-range expression,
* `extract_noise_clip` (lines 95-106): clamping and slicing the noise clip,
* `PROFILE_SETTINGS` / profile resolution (lines 18-59, 126),
* `process_file` (lines 108-141): the per-file pipeline, with the external
  denoiser (`noisereduce.reduce_noise`) passed as an opaque function argument,
* the discovery and dispatch logic of `main` (lines 143-263).

Modelling conventions: Python floats are modelled as exact rationals (no claim
here depends on binary rounding); Python strings are modelled through their
character lists, with `str.lower`, `str.strip`, `str.split` and `float()`
re-implemented at the `List Char` level so that their behaviour is the one of
Python, not the one of Lean's `String` library; `float()` is modelled for
finite decimal literals (optional surrounding whitespace, sign, digits,
decimal point, exponent) and returns `none` where Python raises `ValueError`.
Fallible steps return `Option`; a `try`/`except` block is the `Option.getD`
of the body's value.
-/

/-- Characters counted as whitespace by Python's `float()` stripping. -/
def pyIsSpace (c : Char) : Bool :=
  c = ' ' ∨ c = '\t' ∨ c = '\n' ∨ c = '\r'

/-- Strip a given character from both ends of a character list:
Python's `str.strip(c)`. -/
def pyStripChar (sep : Char) (l : List Char) : List Char :=
  ((l.dropWhile (· = sep)).reverse.dropWhile (· = sep)).reverse

/-- Strip whitespace from both ends, as `float()` does before parsing. -/
def pyStripWS (l : List Char) : List Char :=
  ((l.dropWhile pyIsSpace).reverse.dropWhile pyIsSpace).reverse

/-- Numeric value of a digit string (most significant first). -/
def digitsVal (l : List Char) : ℕ :=
  l.foldl (fun a c => 10 * a + (c.toNat - 48)) 0

/-- Consume an optional leading sign; return whether it was a minus. -/
def parseSignChars : List Char → Bool × List Char
  | '-' :: r => (true, r)
  | '+' :: r => (false, r)
  | l => (false, l)

/-- Parse the mantissa of a float literal: `digits`, `digits.digits`,
`digits.` or `.digits`; at least one digit is required. -/
def parseMantissa (l : List Char) : Option (ℚ × List Char) :=
  let ip := l.takeWhile Char.isDigit
  let r1 := l.dropWhile Char.isDigit
  match r1 with
  | '.' :: r2 =>
    let fp := r2.takeWhile Char.isDigit
    let r3 := r2.dropWhile Char.isDigit
    if ip = [] ∧ fp = [] then none
    else some ((digitsVal ip : ℚ) + (digitsVal fp : ℚ) / (10 : ℚ) ^ fp.length, r3)
  | _ => if ip = [] then none else some ((digitsVal ip : ℚ), r1)

/-- Parse the optional exponent part; returns the multiplier `10^e`.
The whole rest of the input must be consumed. -/
def parseExponentPart (l : List Char) : Option ℚ :=
  match l with
  | [] => some 1
  | c :: r =>
    if c = 'e' ∨ c = 'E' then
      let sr := parseSignChars r
      let ed := sr.2.takeWhile Char.isDigit
      let r3 := sr.2.dropWhile Char.isDigit
      if ed = [] ∨ r3 ≠ [] then none
      else some ((10 : ℚ) ^ ((if sr.1 then -1 else 1) * (digitsVal ed : ℤ)))
    else none

/-- Model of Python's `float(s)` on finite decimal literals: strips
whitespace, then `[sign] mantissa [exponent]`; `none` models `ValueError`. -/
def parseFloatChars (l : List Char) : Option ℚ :=
  let l1 := pyStripWS l
  let sl := parseSignChars l1
  match parseMantissa sl.2 with
  | none => none
  | some (m, r) =>
    match parseExponentPart r with
    | none => none
    | some mult => some ((if sl.1 then -m else m) * mult)

/-- Python's `str.split(sep)` for a single-character separator:
adjacent separators and separators at the ends yield empty pieces;
the empty string yields one empty piece. -/
def splitOnChar (sep : Char) : List Char → List (List Char)
  | [] => [[]]
  | c :: r =>
    if c = sep then [] :: splitOnChar sep r
    else
      match splitOnChar sep r with
      | h :: t => (c :: h) :: t
      | [] => [[c]]

/-- The body of `parse_time_range` (source lines 69-89), i.e. the `try`
block: `none` models an exception escaping to the `except` handler.
Branches, in source order: keyword `start`, keyword `end`, percentage,
two-float range, single position. -/
def parse_time_range_core (time_str : String) (total_duration : ℚ) :
    Option (ℚ × ℚ) :=
  let l := time_str.data
  if l.map Char.toLower = "start".data then some (0, 1)
  else if l.map Char.toLower = "end".data then
    some (total_duration - 1, total_duration)
  else if l.contains '%' then
    match parseFloatChars (pyStripChar '%' l) with
    | some p => some (0, total_duration * (p / 100))
    | none => none
  else if l.contains '-' then
    match splitOnChar '-' l with
    | [a, b] =>
      match parseFloatChars a, parseFloatChars b with
      | some s, some e => some (s, e)
      | _, _ => none
    | _ => none
  else
    match parseFloatChars l with
    | some p => some (p, p + 1)
    | none => none

/-- `parse_time_range` (source lines 61-93): the `except` handler maps any
failure of the body to the fallback interval `(0.0, 1.0)`. -/
def parse_time_range (time_str : String) (total_duration : ℚ) : ℚ × ℚ :=
  (parse_time_range_core time_str total_duration).getD (0, 1)

/-- Python's `max(a, b)` on numbers (the first argument wins ties). -/
def pyMax (a b : ℚ) : ℚ :=
  if b ≤ a then a else b

/-- Python's `min(a, b)` on numbers (the first argument wins ties). -/
def pyMin (a b : ℚ) : ℚ :=
  if a ≤ b then a else b

/-- Python's `int()` on a float: truncation toward zero.  A rational's
reduced denominator is positive, so truncating integer division of the
numerator by the denominator is exactly that. -/
def pyInt (q : ℚ) : ℤ :=
  q.num.tdiv q.den

/-- Rounding to the nearest integer, `⌊q + 1/2⌋` computed arithmetically
(ties round up; the spec's `round` does not pin tie behaviour and no
comparison below is at a tie). -/
def roundQ (q : ℚ) : ℤ :=
  Int.fdiv (2 * q.num + q.den) (2 * q.den)

/-- The clamping function in the spec's words:
`clamp(x, lo, hi) = min(max(x, lo), hi)`. -/
def clampQ (x lo hi : ℚ) : ℚ :=
  pyMin (pyMax x lo) hi

/-- `extract_noise_clip` (source lines 95-106): clamp the interval, convert
to sample indices with `int()`, take the half-open slice. -/
def extract_noise_clip (audio : List ℚ) (sr : ℕ) (time_range : ℚ × ℚ)
    (total_duration : ℚ) : List ℚ :=
  let start_time := pyMax 0 (pyMin time_range.1 (total_duration - 1/10))
  let end_time := pyMax (start_time + 1/10) (pyMin time_range.2 total_duration)
  let start_sample := (pyInt (start_time * sr)).toNat
  let end_sample := (pyInt (end_time * sr)).toNat
  (audio.take end_sample).drop start_sample

/-- Modelled from the spec: the extractor as section 4.2 describes it, with
sample indices computed by rounding (the spec's `round(start' * sample_rate)`
and `round(end' * sample_rate)`) instead of the source's `int()` truncation.
Used only to compare the spec's wording against `extract_noise_clip`. -/
def extract_noise_clip_rounded (audio : List ℚ) (sr : ℕ) (time_range : ℚ × ℚ)
    (total_duration : ℚ) : List ℚ :=
  let start_time := pyMax 0 (pyMin time_range.1 (total_duration - 1/10))
  let end_time := pyMax (start_time + 1/10) (pyMin time_range.2 total_duration)
  let start_sample := (roundQ (start_time * sr)).toNat
  let end_sample := (roundQ (end_time * sr)).toNat
  (audio.take end_sample).drop start_sample

/-- A denoising parameter bundle, the value type of `PROFILE_SETTINGS`
(source lines 18-59). -/
structure NoiseProfile where
  stationary : Bool
  prop_decrease : ℚ
  n_fft : ℕ
  win_length : ℕ
  hop_length : ℕ
  n_std_thresh_stationary : ℚ
deriving DecidableEq

def footstepsProfile : NoiseProfile := ⟨true, 9/10, 512, 512, 128, 3/2⟩

def rainProfile : NoiseProfile := ⟨false, 4/5, 2048, 2048, 512, 2⟩

def windProfile : NoiseProfile := ⟨false, 7/10, 1024, 1024, 256, 9/5⟩

def voiceProfile : NoiseProfile := ⟨true, 1, 1024, 1024, 256, 3/2⟩

def defaultProfile : NoiseProfile := ⟨true, 19/20, 1024, 1024, 256, 17/10⟩

/-- `PROFILE_SETTINGS` (source lines 18-59) as an association list in
source order. -/
def PROFILE_SETTINGS : List (String × NoiseProfile) :=
  [("footsteps", footstepsProfile), ("rain", rainProfile),
   ("wind", windProfile), ("voice", voiceProfile),
   ("default", defaultProfile)]

/-- `PROFILE_SETTINGS.get(profile, PROFILE_SETTINGS["default"])`
(source line 126). The inner lookup of `"default"` always succeeds, so its
`getD defaultProfile` is never exercised. -/
def resolveProfile (name : String) : NoiseProfile :=
  (PROFILE_SETTINGS.lookup name).getD
    ((PROFILE_SETTINGS.lookup "default").getD defaultProfile)

/-- The `extensions` list of `main` (source line 210). -/
def AUDIO_EXTENSIONS : List String :=
  [".flac", ".wav", ".mp3", ".ogg", ".aiff"]

/-- Python's `str.upper()`, used for `ext.upper()` (source line 219). -/
def pyUpper (s : String) : String :=
  String.mk (s.data.map Char.toUpper)

/-- Whether `input_dir.glob(search_pattern + ext)` matches a file, where the
file is given by its path components relative to `input_dir`.  Pattern
`"*" + ext` matches direct children whose name ends with `ext`; pattern
`"**/*" + ext` (the `recursive` case) matches at any depth. -/
def globMatch (recursive : Bool) (ext : String) (f : List String) : Bool :=
  (if recursive then true else f.length == 1) &&
  (match f.getLast? with
   | some name => ext.data.isSuffixOf name.data
   | none => false)

/-- The discovery loop of `main` (source lines 209-219): starting from an
empty list, for each extension extend with the matches of the lowercase
pattern, then with the matches of the uppercase pattern. -/
def discoverAudioFiles (files : List (List String)) (recursive : Bool) :
    List (List String) :=
  AUDIO_EXTENSIONS.foldl
    (fun acc ext =>
      (acc ++ files.filter (globMatch recursive ext))
        ++ files.filter (globMatch recursive (pyUpper ext)))
    []

/-- Modelled from the spec: batch discovery as section 4.5 and C8 word it —
"enumerate files whose extension (case-insensitive) is one of
`{.flac, .wav, .mp3, .ogg, .aiff}`", i.e. the lowercased name ends with one
of the extensions; recurse only when `recursive` is set.  Used only to
compare the spec's wording against `discoverAudioFiles`. -/
def discoverSpecModel (files : List (List String)) (recursive : Bool) :
    List (List String) :=
  files.filter (fun f =>
    (if recursive then true else f.length == 1) &&
    (match f.getLast? with
     | some name =>
       AUDIO_EXTENSIONS.any
         (fun ext => ext.data.isSuffixOf (name.data.map Char.toLower))
     | none => false))

/-- The result of `soundfile.read`: a mono sample list, or per-frame channel
rows for multi-channel data (`len(audio.shape) > 1`). -/
inductive AudioData where
  | mono (samples : List ℚ)
  | multi (frames : List (List ℚ))

/-- `len(audio)` on the raw read result: the number of frames. -/
def audioFrames : AudioData → ℕ
  | .mono s => s.length
  | .multi f => f.length

/-- `np.mean(audio, axis=1)` when multi-channel, identity when mono
(source lines 116-117). -/
def downmixAudio : AudioData → List ℚ
  | .mono s => s
  | .multi f => f.map (fun fr => fr.sum / (fr.length : ℚ))

/-- `process_file` (source lines 108-141).  `denoise` stands for the external
`noisereduce.reduce_noise`; `input` is the result of `sf.read` (`none` models
a read failure, caught by the surrounding `try`).  Returns the success flag
and the samples written to the output path (`none` when nothing is written).
The `noise_duration` parameter is accepted, as in the source, and never
read. -/
def process_file (denoise : List ℚ → List ℚ → ℕ → NoiseProfile → List ℚ)
    (input : Option (AudioData × ℕ)) (profile : String)
    (noise_position : String) (noise_duration : ℚ) :
    Bool × Option (List ℚ) :=
  match input with
  | none => (false, none)
  | some (data, sr) =>
    let total_duration : ℚ := (audioFrames data : ℚ) / (sr : ℚ)
    let audio := downmixAudio data
    let time_range := parse_time_range noise_position total_duration
    let noise_clip := extract_noise_clip audio sr time_range total_duration
    let params := resolveProfile profile
    let cleaned_audio := denoise audio noise_clip sr params
    (true, some cleaned_audio)

/-- The command-line arguments consumed by the modelled part of `main`
(source lines 150-165). -/
structure Args where
  profile : String
  noise_position : String
  noise_duration : ℚ
  recursive : Bool
  verbose : Bool
  test_noise : Bool

/-- The state of the top-level input path: an existing file with its read
result, an existing directory given as relative paths with their read
results, or neither. -/
inductive InputPath where
  | file (name : String) (content : Option (AudioData × ℕ))
  | dir (tree : List (List String × Option (AudioData × ℕ)))
  | missing

/-- Observable outcome of one run of `main`: whether the output directory
was created, the process exit code, and the files written (output path
components relative to the output directory, with their samples). -/
structure MainResult where
  outputDirCreated : Bool
  exitCode : ℕ
  written : List (List String × List ℚ)

/-- `main` (source lines 143-263).  `output_dir.mkdir` (line 171) runs
before the input path is examined, so every branch — including the
nonexistent-path branch, which exits with status 1 (lines 261-263) — has
the output directory created.  In test-noise mode only the output filename
prefix changes (lines 177-180, 235-238); `process_file` is invoked
identically. -/
def mainModel (denoise : List ℚ → List ℚ → ℕ → NoiseProfile → List ℚ)
    (args : Args) (input : InputPath) : MainResult :=
  match input with
  | .file name content =>
    let outName :=
      (if args.test_noise then "noise_sample_" else "cleaned_") ++ name
    let result :=
      process_file denoise content args.profile args.noise_position
        args.noise_duration
    ⟨true, 0,
     match result.2 with
     | some c => [([outName], c)]
     | none => []⟩
  | .dir tree =>
    let files := discoverAudioFiles (tree.map Prod.fst) args.recursive
    let written := files.foldl
      (fun acc f =>
        match f.getLast?, tree.lookup f with
        | some name, some content =>
          let outName :=
            (if args.test_noise then "noise_sample_" else "cleaned_") ++ name
          match (process_file denoise content args.profile
              args.noise_position args.noise_duration).2 with
          | some c => acc ++ [(f.dropLast ++ [outName], c)]
          | none => acc
        | _, _ => acc)
      []
    ⟨true, 0, written⟩
  | .missing => ⟨true, 1, []⟩

/-! ## Helper lemmas -/

lemma pyMax_eq_max (a b : ℚ) : pyMax a b = max a b := by
  unfold pyMax
  rcases le_total a b with h | h
  · rw [max_eq_right h]
    split_ifs with h2
    · exact le_antisymm h h2
    · rfl
  · rw [max_eq_left h, if_pos h]

lemma pyMin_eq_min (a b : ℚ) : pyMin a b = min a b := by
  rw [pyMin, min_def]

lemma clampQ_eq_max_min (x lo hi : ℚ) (h : lo ≤ hi) :
    clampQ x lo hi = pyMax lo (pyMin x hi) := by
  unfold clampQ
  rw [pyMax_eq_max, pyMax_eq_max, pyMin_eq_min, pyMin_eq_min]
  rcases le_total x lo with h1 | h1 <;> rcases le_total x hi with h2 | h2 <;>
    simp [max_def, min_def] <;> split_ifs <;> linarith

lemma clampQ_le_hi (x lo hi : ℚ) : clampQ x lo hi ≤ hi := by
  unfold clampQ pyMin pyMax
  split_ifs <;> linarith

lemma clampQ_ge_lo (x lo hi : ℚ) (h : lo ≤ hi) : lo ≤ clampQ x lo hi := by
  unfold clampQ pyMin pyMax
  split_ifs <;> linarith

lemma extract_noise_clip_eq_clamped (audio : List ℚ) (sr : ℕ) (s e d s' e' : ℚ)
    (hd : (1 : ℚ)/5 ≤ d)
    (hs' : s' = clampQ s 0 (d - 1/10))
    (he' : e' = clampQ e (s' + 1/10) d) :
    extract_noise_clip audio sr (s, e) d
      = (audio.take (pyInt (e' * sr)).toNat).drop (pyInt (s' * sr)).toNat := by
  have h0 : (0 : ℚ) ≤ d - 1/10 := by linarith
  have h1 : pyMax 0 (pyMin s (d - 1/10)) = s' := by
    rw [hs', clampQ_eq_max_min _ _ _ h0]
  have hs'le : s' ≤ d - 1/10 := by
    rw [hs']; exact clampQ_le_hi _ _ _
  have h2 : s' + 1/10 ≤ d := by linarith
  have h3 : pyMax (s' + 1/10) (pyMin e d) = e' := by
    rw [he', clampQ_eq_max_min _ _ _ h2]
  simp only [extract_noise_clip]
  rw [h1, h3]

/-- C3: for every interval `(s, e)` and every `total_duration ≥ 0.2`, the
noise-clip extractor applies the clamping policy
`start' = clamp(start, 0, total_duration - 0.1)`,
`end' = clamp(end, start' + 0.1, total_duration)` and returns the half-open
slice at those clamped bounds, which is non-empty (minimum 0.1 s) and fully
contained within `[0, total_duration]`. -/
theorem extract_noise_clip_clamping (audio : List ℚ) (sr : ℕ) (s e d s' e' : ℚ)
    (hd : (1 : ℚ)/5 ≤ d)
    (hs' : s' = clampQ s 0 (d - 1/10))
    (he' : e' = clampQ e (s' + 1/10) d) :
    extract_noise_clip audio sr (s, e) d
      = (audio.take (pyInt (e' * sr)).toNat).drop (pyInt (s' * sr)).toNat
    ∧ 0 ≤ s' ∧ s' + 1/10 ≤ e' ∧ e' ≤ d := by
  have h0 : (0 : ℚ) ≤ d - 1/10 := by linarith
  have hs'0 : 0 ≤ s' := by
    rw [hs']; exact clampQ_ge_lo _ _ _ h0
  have hs'le : s' ≤ d - 1/10 := by
    rw [hs']; exact clampQ_le_hi _ _ _
  have h2 : s' + 1/10 ≤ d := by linarith
  refine ⟨extract_noise_clip_eq_clamped audio sr s e d s' e' hd hs' he',
    hs'0, ?_, ?_⟩
  · rw [he']; exact clampQ_ge_lo _ _ _ h2
  · rw [he']; exact clampQ_le_hi _ _ _

theorem extract_noise_clip_clamping_witness :
    (1 : ℚ)/5 ≤ 2
    ∧ (0 : ℚ) = clampQ (-1) 0 (2 - 1/10)
    ∧ (2 : ℚ) = clampQ 100 (0 + 1/10) 2
    ∧ (extract_noise_clip [0, 1, 2, 3, 4] 2 (-1, 100) 2
        = (([0, 1, 2, 3, 4] : List ℚ).take (pyInt ((2 : ℚ) * (2 : ℕ))).toNat).drop
            (pyInt ((0 : ℚ) * (2 : ℕ))).toNat
      ∧ (0 : ℚ) ≤ 0 ∧ (0 : ℚ) + 1/10 ≤ 2 ∧ (2 : ℚ) ≤ 2) :=
  ⟨by norm_num, by norm_num [clampQ, pyMin, pyMax],
   by norm_num [clampQ, pyMin, pyMax],
   extract_noise_clip_clamping [0, 1, 2, 3, 4] 2 (-1) 100 2 0 2
     (by norm_num) (by norm_num [clampQ, pyMin, pyMax])
     (by norm_num [clampQ, pyMin, pyMax])⟩

/-- C4 counterexample: the extractor does not use rounding.  On a 30-sample
ramp signal at 3 Hz with interval `(0.9, 1.9)`, truncation gives the slice
`[2, 5)` while the spec's rounding gives `[3, 6)`. -/
theorem extract_noise_clip_not_rounded :
    extract_noise_clip ((List.range 30).map (fun n => (n : ℚ))) 3
        (9/10, 19/10) 10
      ≠ extract_noise_clip_rounded ((List.range 30).map (fun n => (n : ℚ))) 3
        (9/10, 19/10) 10 := by
  have h27 : ((9 : ℚ)/10 * (3 : ℕ)) = Rat.divInt 27 10 := by
    rw [Rat.divInt_eq_div]; norm_num
  have h57 : ((19 : ℚ)/10 * (3 : ℕ)) = Rat.divInt 57 10 := by
    rw [Rat.divInt_eq_div]; norm_num
  have hs : pyMax 0 (pyMin ((9 : ℚ)/10) (10 - 1/10)) = 9/10 := by
    norm_num [pyMax, pyMin]
  have he : pyMax ((9 : ℚ)/10 + 1/10) (pyMin (19/10) 10) = 19/10 := by
    norm_num [pyMax, pyMin]
  simp only [extract_noise_clip, extract_noise_clip_rounded, hs, he, h27, h57]
  decide

/-- C4 amended: the extractor converts the clamped interval to sample indices
by truncation toward zero (Python `int()`), not by rounding: the slice
boundaries are `int(start' * sample_rate)` and `int(end' * sample_rate)`,
taken as a half-open slice of the signal. -/
theorem extract_noise_clip_truncated_indices (audio : List ℚ) (sr : ℕ)
    (s e d s' e' : ℚ) (hd : (1 : ℚ)/5 ≤ d)
    (hs' : s' = clampQ s 0 (d - 1/10))
    (he' : e' = clampQ e (s' + 1/10) d) :
    extract_noise_clip audio sr (s, e) d
      = (audio.take (pyInt (e' * sr)).toNat).drop (pyInt (s' * sr)).toNat :=
  extract_noise_clip_eq_clamped audio sr s e d s' e' hd hs' he'

theorem extract_noise_clip_truncated_indices_witness :
    (1 : ℚ)/5 ≤ 10
    ∧ (9/10 : ℚ) = clampQ (9/10) 0 (10 - 1/10)
    ∧ (19/10 : ℚ) = clampQ (19/10) (9/10 + 1/10) 10
    ∧ extract_noise_clip ((List.range 30).map (fun n => (n : ℚ))) 3
          (9/10, 19/10) 10
        = (((List.range 30).map (fun n => (n : ℚ))).take
              (pyInt ((19/10 : ℚ) * (3 : ℕ))).toNat).drop
            (pyInt ((9/10 : ℚ) * (3 : ℕ))).toNat :=
  ⟨by norm_num, by norm_num [clampQ, pyMin, pyMax],
   by norm_num [clampQ, pyMin, pyMax],
   extract_noise_clip_truncated_indices ((List.range 30).map (fun n => (n : ℚ)))
     3 (9/10) (19/10) 10 (9/10) (19/10) (by norm_num)
     (by norm_num [clampQ, pyMin, pyMax]) (by norm_num [clampQ, pyMin, pyMax])⟩

/-- C7: profile resolution never fails: an unknown or absent name resolves to
exactly the `default` profile's parameter bundle, and resolving the same name
twice yields value-equal parameter bundles. -/
theorem resolveProfile_total_idempotent :
    (∀ name : String, name ∉ PROFILE_SETTINGS.map Prod.fst →
        resolveProfile name = resolveProfile "default")
    ∧ (∀ name : String, resolveProfile name = resolveProfile name) := by
  refine ⟨?_, fun _ => rfl⟩
  intro name h
  simp only [PROFILE_SETTINGS, List.map_cons, List.map_nil, List.mem_cons,
    List.not_mem_nil, or_false, not_or] at h
  obtain ⟨h1, h2, h3, h4, h5⟩ := h
  have b1 : (name == "footsteps") = false := beq_eq_false_iff_ne.mpr h1
  have b2 : (name == "rain") = false := beq_eq_false_iff_ne.mpr h2
  have b3 : (name == "wind") = false := beq_eq_false_iff_ne.mpr h3
  have b4 : (name == "voice") = false := beq_eq_false_iff_ne.mpr h4
  have b5 : (name == "default") = false := beq_eq_false_iff_ne.mpr h5
  simp [resolveProfile, PROFILE_SETTINGS, List.lookup, b1, b2, b3, b4, b5]

theorem resolveProfile_total_idempotent_witness :
    "reverb" ∉ PROFILE_SETTINGS.map Prod.fst
    ∧ resolveProfile "reverb" = resolveProfile "default" :=
  ⟨by decide, resolveProfile_total_idempotent.1 "reverb" (by decide)⟩

/-- C9: the `noise_duration` argument is not algorithmically consumed: for
every input, denoiser, and fixed values of the other arguments, per-file
processing returns the same success flag and the same written output for any
two values of `noise_duration`. -/
theorem process_file_ignores_noise_duration
    (denoise : List ℚ → List ℚ → ℕ → NoiseProfile → List ℚ)
    (input : Option (AudioData × ℕ)) (profile noise_position : String)
    (d1 d2 : ℚ) :
    process_file denoise input profile noise_position d1
      = process_file denoise input profile noise_position d2 := rfl

/-- C2 counterexample: on a nonexistent input path the process does exit with
a non-zero status, but the output directory is still created (the `mkdir` at
source line 171 runs before the input path is examined), so the claim's
conjunction fails. -/
theorem missing_input_still_creates_output_dir :
    ¬ ((mainModel (fun y _ _ _ => y)
          ⟨"default", "start", 1, false, false, false⟩ InputPath.missing).exitCode ≠ 0
      ∧ (mainModel (fun y _ _ _ => y)
          ⟨"default", "start", 1, false, false, false⟩ InputPath.missing).outputDirCreated
          = false) := by
  decide

/-- C2 amended: if the top-level input path exists as neither a file nor a
directory, the process terminates with exit status 1, but the output
directory has already been created unconditionally before the check. -/
theorem missing_input_exit_one_dir_created
    (denoise : List ℚ → List ℚ → ℕ → NoiseProfile → List ℚ) (args : Args) :
    (mainModel denoise args InputPath.missing).exitCode = 1
    ∧ (mainModel denoise args InputPath.missing).outputDirCreated = true :=
  ⟨rfl, rfl⟩

/-- C8 counterexample: a file whose extension is a mixed-case variant of a
supported extension (here `.Wav`) is a case-insensitive match per the spec,
but the discovery loop, which globs only the all-lowercase and all-uppercase
patterns, does not enumerate it. -/
theorem discover_misses_mixed_case :
    discoverAudioFiles [["a.Wav"]] false ≠ discoverSpecModel [["a.Wav"]] false := by
  decide

/-- C8 amended: batch discovery enumerates exactly the files whose name ends
with one of the supported extensions written all-lowercase or all-uppercase
(mixed-case extensions are not matched), and files in subdirectories are
included only when the recursive flag is set. -/
theorem discoverAudioFiles_mem (files : List (List String)) (recursive : Bool)
    (f : List String) :
    f ∈ discoverAudioFiles files recursive ↔
      f ∈ files ∧ (recursive = true ∨ f.length = 1)
        ∧ ∃ name, f.getLast? = some name
            ∧ ∃ ext ∈ AUDIO_EXTENSIONS,
                (ext.data.isSuffixOf name.data = true
                  ∨ (pyUpper ext).data.isSuffixOf name.data = true) := by
  cases recursive <;>
    rcases hl : f.getLast? with _ | name <;>
      simp [discoverAudioFiles, AUDIO_EXTENSIONS, globMatch, hl,
        List.mem_filter] <;>
      tauto

lemma toLower_map_ne_of_percent (l : List Char) (h : l.contains '%' = true)
    (t : List Char) (ht : t.contains '%' = false) :
    l.map Char.toLower ≠ t := by
  intro he
  have h1 : '%' ∈ l := by simpa [List.contains, List.elem_iff] using h
  have h2 : Char.toLower '%' ∈ l.map Char.toLower := List.mem_map_of_mem _ h1
  rw [he] at h2
  have h3 : Char.toLower '%' = '%' := by decide
  rw [h3] at h2
  have h4 : t.contains '%' = true := by
    simpa [List.contains, List.elem_iff] using h2
  exact absurd (ht.symm.trans h4) (by decide)

lemma toLower_map_ne_of_head (l : List Char) (c : Char) (h : l.head? = some c)
    (t : List Char) (c' : Char) (ht : t.head? = some c')
    (hne : Char.toLower c ≠ c') :
    l.map Char.toLower ≠ t := by
  intro he
  cases l with
  | nil => simp at h
  | cons a r =>
    have ha : a = c := by simpa using h
    subst ha
    cases t with
    | nil => simp at he
    | cons b s =>
      have hb : b = c' := by simpa using ht
      subst hb
      simp only [List.map_cons, List.cons.injEq] at he
      exact hne he.1

/-- C5: the time-range parser is total and failure-free: whenever the body
of the `try` block fails, the parser returns the fallback `(0.0, 1.0)`, and
the malformed inputs `"abc"`, `"1-2-3"` and `""` all yield `(0.0, 1.0)`. -/
theorem parse_time_range_total_and_fallback :
    (∀ (s : String) (d : ℚ), parse_time_range_core s d = none →
        parse_time_range s d = (0, 1))
    ∧ (∀ d : ℚ, parse_time_range "abc" d = (0, 1))
    ∧ (∀ d : ℚ, parse_time_range "1-2-3" d = (0, 1))
    ∧ (∀ d : ℚ, parse_time_range "" d = (0, 1)) := by
  refine ⟨fun s d h => ?_, fun d => rfl, fun d => rfl, fun d => rfl⟩
  simp [parse_time_range, h]

theorem parse_time_range_total_and_fallback_witness :
    parse_time_range_core "xyz" 7 = none ∧ parse_time_range "xyz" 7 = (0, 1) :=
  ⟨rfl, parse_time_range_total_and_fallback.1 "xyz" 7 rfl⟩

/-- C6: for every `total_duration > 1`, any case variant of `"start"` parses
to `(0, 1)` and any case variant of `"end"` parses to
`(total_duration - 1, total_duration)`; every well-formed percentage string
whose numeric part is `p` with `0 ≤ p ≤ 100` parses to
`(0, total_duration * p / 100)`, measured from the beginning. -/
theorem parse_time_range_keywords_percent (d : ℚ) (hd : 1 < d) :
    (∀ s : String, s.data.map Char.toLower = "start".data →
        parse_time_range s d = (0, 1))
    ∧ (∀ s : String, s.data.map Char.toLower = "end".data →
        parse_time_range s d = (d - 1, d))
    ∧ (∀ (s : String) (p : ℚ), s.data.contains '%' = true →
        parseFloatChars (pyStripChar '%' s.data) = some p →
        0 ≤ p → p ≤ 100 → parse_time_range s d = (0, d * p / 100)) := by
  refine ⟨fun s h => ?_, fun s h => ?_, fun s p hc hp h0 h100 => ?_⟩
  · simp [parse_time_range, parse_time_range_core, h]
  · simp [parse_time_range, parse_time_range_core, h,
      (by decide : ("end".data : List Char) ≠ "start".data)]
  · have hne1 : s.data.map Char.toLower ≠ "start".data :=
      toLower_map_ne_of_percent _ hc _ (by decide)
    have hne2 : s.data.map Char.toLower ≠ "end".data :=
      toLower_map_ne_of_percent _ hc _ (by decide)
    have hc' : '%' ∈ s.data := by
      simpa [List.contains, List.elem_iff] using hc
    simp [parse_time_range, parse_time_range_core, hne1, hne2, hc', hp,
      mul_div_assoc]

theorem parse_time_range_keywords_percent_witness :
    (1 : ℚ) < 2
    ∧ parse_time_range "START" 2 = (0, 1)
    ∧ parse_time_range "End" 2 = (2 - 1, 2)
    ∧ parse_time_range "5%" 2 = (0, 2 * 5 / 100) := by
  have h := parse_time_range_keywords_percent 2 (by norm_num)
  have h5 : parseFloatChars (pyStripChar '%' "5%".data)
      = some (((5 : ℕ) : ℚ) * 1) := rfl
  have e5 : (((5 : ℕ) : ℚ) * 1) = 5 := by norm_num
  rw [e5] at h5
  exact ⟨by norm_num, h.1 "START" (by decide), h.2.1 "End" (by decide),
    h.2.2 "5%" 5 (by decide) h5 (by norm_num) (by norm_num)⟩

/-- C10: a bare negative float expression (leading minus sign, parseable as a
float, no percent sign) is routed to the range branch because it contains a
minus character; the two-float split then fails on the empty first piece, so
the parser returns the fallback `(0, 1)` rather than
`(position, position + 1)`. -/
theorem bare_negative_float_falls_back (s : String) (d p : ℚ)
    (hh : s.data.head? = some '-')
    (hp : parseFloatChars s.data = some p)
    (hnp : s.data.contains '%' = false) :
    parse_time_range s d = (0, 1) := by
  obtain ⟨r, hl⟩ : ∃ r, s.data = '-' :: r := by
    cases h : s.data with
    | nil => simp [h] at hh
    | cons a t =>
      rw [h] at hh
      have ha : a = '-' := by simpa using hh
      exact ⟨t, by rw [ha]⟩
  have hne1 : s.data.map Char.toLower ≠ "start".data :=
    toLower_map_ne_of_head _ '-' (by rw [hl]; rfl) _ 's' (by decide) (by decide)
  have hne2 : s.data.map Char.toLower ≠ "end".data :=
    toLower_map_ne_of_head _ '-' (by rw [hl]; rfl) _ 'e' (by decide) (by decide)
  have hdash : s.data.contains '-' = true := by
    rw [hl]; simp [List.contains]
  have hcore : parse_time_range_core s d = none := by
    simp only [parse_time_range_core, hne1, hne2, hnp, hdash, if_neg,
      if_false, Bool.false_eq_true, if_true]
    rw [hl]
    rcases hsp : splitOnChar '-' r with _ | ⟨b, rest⟩ <;>
      simp [splitOnChar, hsp, show parseFloatChars [] = none from rfl]
    rcases rest with _ | ⟨c2, rest2⟩ <;>
      simp [show parseFloatChars [] = none from rfl]
  simp [parse_time_range, hcore]

theorem bare_negative_float_falls_back_witness :
    "-3".data.head? = some '-'
    ∧ parseFloatChars "-3".data = some (-3)
    ∧ "-3".data.contains '%' = false
    ∧ parse_time_range "-3" 7 = (0, 1) := by
  have h3 : parseFloatChars "-3".data = some (-((3 : ℕ) : ℚ) * 1) := rfl
  have e3 : (-((3 : ℕ) : ℚ) * 1) = -3 := by norm_num
  rw [e3] at h3
  exact ⟨rfl, h3, rfl, bare_negative_float_falls_back "-3" 7 (-3) rfl h3 rfl⟩

/-- C1: the test-noise flag does not bypass the denoise step.  On a
20-second mono file (20 samples at 1 Hz) with noise position `"5%"` and the
test-noise flag set, the output filename does get the `noise_sample_`
prefix, but the written samples are the denoised full-length track (here
witnessed with the identity denoiser: all 20 seconds of input), not the
extracted noise clip, which is 1 sample (1.0 second) long. -/
theorem test_noise_writes_denoised_full_track :
    (mainModel (fun y _ _ _ => y)
        ⟨"default", "5%", 1, false, false, true⟩
        (InputPath.file "a.wav"
          (some (AudioData.mono (List.replicate 20 0), 1)))).written
      = [(["noise_sample_a.wav"], List.replicate 20 (0 : ℚ))]
    ∧ (List.replicate 20 (0 : ℚ)).length = 20
    ∧ (extract_noise_clip (List.replicate 20 (0 : ℚ)) 1
        (parse_time_range "5%" 20) 20).length = 1 := by
  refine ⟨rfl, rfl, ?_⟩
  have hp : parse_time_range "5%" 20
      = (0, 20 * ((((5 : ℕ) : ℚ) * 1) / 100)) := rfl
  have e1 : (20 * ((((5 : ℕ) : ℚ) * 1) / 100) : ℚ) = 1 := by norm_num
  rw [hp, e1]
  have hx := extract_noise_clip_eq_clamped (List.replicate 20 (0 : ℚ)) 1 0 1 20
    0 1 (by norm_num) (by norm_num [clampQ, pyMin, pyMax])
    (by norm_num [clampQ, pyMin, pyMax])
  have h1 : pyInt ((1 : ℚ) * ((1 : ℕ) : ℚ)) = 1 := by
    have e : ((1 : ℚ) * ((1 : ℕ) : ℚ)) = 1 := by norm_num
    rw [e]; decide
  have h0 : pyInt ((0 : ℚ) * ((1 : ℕ) : ℚ)) = 0 := by
    have e : ((0 : ℚ) * ((1 : ℕ) : ℚ)) = 0 := by norm_num
    rw [e]; decide
  rw [hx, h1, h0]
  decide
